import Mathlib

/-
Shallow embedding of `src/banking_system.py` (a single-file in-memory banking
ledger) and proofs of the specification claims about it.

Modelling conventions:
* Python `Decimal` amounts are embedded as `ℚ` (the program only adds,
  subtracts and compares Decimals, which is exact rational arithmetic).
* `UUID` values (`uuid4()` results) are embedded as `Nat` parameters supplied
  by the caller of each operation; the program never inspects them beyond
  equality.
* `datetime.now()` timestamps are likewise embedded as caller-supplied `Nat`
  values; the program never inspects them.
* Python dictionaries are embedded as functions `Nat → Option _`
  (`key in dict` = `isSome`); Python raising `ValueError`/`KeyError` is
  embedded as `Except BankError` results.  In-place mutation is embedded as
  explicit state passing; an operation that can raise after mutating state
  returns the (possibly mutated) state alongside the `Except` result, so that
  the state visible to the caller after an exception is modelled faithfully.
* `AccountRepository.customer_accounts` in Python stores references to the
  very same `Account` objects held in `accounts`; reference semantics is
  embedded by storing the account ids and dereferencing through `accounts`.
-/

namespace Banking

deriving instance DecidableEq for Except

/-- The distinct error conditions raised by the program
(`ValueError` / `KeyError` sites, one constructor per raise site). -/
inductive BankError where
  | InvalidAmount
  | InsufficientFunds
  | AccountNotFound
  | DuplicateAccount
  | NoTransactions
  | InvalidPhoneNumber
  | InvalidEmail
  | InvalidAccountNumber
  deriving DecidableEq, Repr

/-- Python `str.isdigit()` for the ASCII strings this program handles:
nonempty and every character a decimal digit. -/
def pyIsdigit (s : String) : Bool :=
  s.length != 0 && s.data.all Char.isDigit

/-- Python `c in s` for a one-character pattern `c`: substring search, which
for a single character is character membership. -/
def pyInStr (c : Char) (s : String) : Bool :=
  s.data.contains c

/-- `Account` dataclass: `customer_id`, `account_number`, `balance`
(default `Decimal("0")`), `account_id`. -/
structure Account where
  customer_id : Nat
  account_number : String
  balance : ℚ
  account_id : Nat
  deriving DecidableEq, Repr

/-- `Account.__post_init__`: raises unless `account_number` is a 10-digit
string; embedded as a checked constructor (balance is the dataclass field
value passed in, `0` at the only construction site, `create_account`). -/
def Account.make (customer_id : Nat) (account_number : String) (balance : ℚ)
    (account_id : Nat) : Except BankError Account :=
  if !(pyIsdigit account_number) || account_number.length ≠ 10 then
    .error .InvalidAccountNumber
  else
    .ok ⟨customer_id, account_number, balance, account_id⟩

/-- `Account.deposit`: raises `InvalidAmount` when `amount < 0`, else adds
`amount` to the balance.  (The source check is `amount < 0`, so `0` passes.) -/
def Account.deposit (a : Account) (amount : ℚ) : Except BankError Account :=
  if amount < 0 then .error .InvalidAmount
  else .ok { a with balance := a.balance + amount }

/-- `Account.withdraw`: raises `InvalidAmount` when `amount ≤ 0`, raises
`InsufficientFunds` when `amount > balance`, else subtracts. -/
def Account.withdraw (a : Account) (amount : ℚ) : Except BankError Account :=
  if amount ≤ 0 then .error .InvalidAmount
  else if a.balance < amount then .error .InsufficientFunds
  else .ok { a with balance := a.balance - amount }

/-- `Customer` dataclass fields. -/
structure Customer where
  name : String
  email : String
  phone_number : String
  customer_id : Nat
  deriving DecidableEq, Repr

/-- `Customer.__post_init__`: raises `InvalidPhoneNumber` unless the phone is
a 12-character all-digit string (the source performs no country-code prefix
check), then raises `InvalidEmail` unless `"@" in email` (the source performs
no check on the number of `@`s or on the parts around them). -/
def Customer.make (name email phone_number : String) (customer_id : Nat) :
    Except BankError Customer :=
  if !(pyIsdigit phone_number) || phone_number.length ≠ 12 then
    .error .InvalidPhoneNumber
  else if !(pyInStr '@' email) then
    .error .InvalidEmail
  else
    .ok ⟨name, email, phone_number, customer_id⟩

/-- `TransactionType` enum. -/
inductive TransactionType where
  | DEPOSIT
  | WITHDRAW
  deriving DecidableEq, Repr

/-- `TransactionType.value` (the enum's string payload). -/
def TransactionType.value : TransactionType → String
  | .DEPOSIT => "DEPOSIT"
  | .WITHDRAW => "WITHDRAW"

/-- `TransactionRecord` dataclass. -/
structure TransactionRecord where
  account_id : Nat
  amount : ℚ
  type : TransactionType
  transaction_timestamp : Nat
  transaction_id : Nat
  deriving DecidableEq, Repr

/-- Little-endian decimal digits of `n`, with explicit fuel (`fuel ≥ n`
suffices, since the argument shrinks by division by 10 each step). -/
def decDigitsAux : Nat → Nat → List Nat
  | 0, _ => []
  | fuel + 1, n => if n = 0 then [] else n % 10 :: decDigitsAux fuel (n / 10)

/-- Decimal digit characters of `n`, most significant first (Python `str(n)`
for a nonnegative integer). -/
def natChars (n : Nat) : List Char :=
  if n = 0 then ['0'] else ((decDigitsAux n n).reverse.map Nat.digitChar)

/-- Python `str(n)` for a nonnegative integer. -/
def natToString (n : Nat) : String :=
  String.mk (natChars n)

/-- Python zero padding (`str.zfill` / the `0Nd` format spec): left-pad with
`'0'` up to width `w`; longer strings are returned unpadded. -/
def zfill (w : Nat) (s : String) : String :=
  String.mk (List.replicate (w - s.length) '0' ++ s.data)

/-- Round a rational to an integer, ties to even (`Decimal`'s default
`ROUND_HALF_EVEN`, used by its `.2f` formatting). -/
def roundHalfEven (q : ℚ) : ℤ :=
  let f := ⌊q⌋
  if q - f < 1 / 2 then f
  else if 1 / 2 < q - f then f + 1
  else if Even f then f else f + 1

/-- Format a nonnegative number of cents as `UNITS.CC`. -/
def centsToString (n : Nat) : String :=
  natToString (n / 100) ++ "." ++ zfill 2 (natToString (n % 100))

/-- Python `f"{amount:.2f}"` on a `Decimal` amount. -/
def formatFixed2 (q : ℚ) : String :=
  let n := roundHalfEven (100 * q)
  if n < 0 then "-" ++ centsToString n.natAbs else centsToString n.toNat

/-- `TransactionRecord.__repr__`:
`DATE: {ts} ------ TYPE: {type.value} ------- AMOUNT: P{amount:.2f}`
(the timestamp is rendered through its abstract `Nat` embedding). -/
def TransactionRecord.reprStr (r : TransactionRecord) : String :=
  "DATE: " ++ natToString r.transaction_timestamp ++ " ------ TYPE: " ++
    r.type.value ++ " ------- AMOUNT: P" ++ formatFixed2 r.amount

/-- `AccountRepository`: `accounts` dict keyed by account id,
`customer_accounts` dict keyed by customer id (missing key ↔ `[]`, matching
the program's `.get(key, [])` reads and create-on-write), and the
`current_account_number` counter. -/
structure AccountRepository where
  accounts : Nat → Option Account
  customer_accounts : Nat → List Nat
  current_account_number : Nat

/-- `AccountRepository.__init__`. -/
def AccountRepository.empty : AccountRepository :=
  ⟨fun _ => none, fun _ => [], 0⟩

/-- `AccountRepository.save_account`: raises `DuplicateAccount` when the id is
already present (state untouched); otherwise stores under the id and appends
to the owner's list. -/
def AccountRepository.save_account (repo : AccountRepository) (a : Account) :
    Except BankError Unit × AccountRepository :=
  match repo.accounts a.account_id with
  | some _ => (.error .DuplicateAccount, repo)
  | none =>
    (.ok (),
      { repo with
        accounts := fun i => if i = a.account_id then some a else repo.accounts i,
        customer_accounts := fun c =>
          if c = a.customer_id then repo.customer_accounts a.customer_id ++ [a.account_id]
          else repo.customer_accounts c })

/-- `AccountRepository.generate_account_number`: increments the counter and
returns `f"{counter:010d}"`. -/
def AccountRepository.generate_account_number (repo : AccountRepository) :
    String × AccountRepository :=
  let n := repo.current_account_number + 1
  (zfill 10 (natToString n), { repo with current_account_number := n })

/-- `AccountRepository.find_account_by_id` (`KeyError` on a missing id). -/
def AccountRepository.find_account_by_id (repo : AccountRepository)
    (account_id : Nat) : Except BankError Account :=
  match repo.accounts account_id with
  | some a => .ok a
  | none => .error .AccountNotFound

/-- `AccountRepository.find_accounts_by_customer_id` (`.get(key, [])`). -/
def AccountRepository.find_accounts_by_customer_id (repo : AccountRepository)
    (customer_id : Nat) : List Nat :=
  repo.customer_accounts customer_id

/-- `TransactionRepository`: `transactions` dict keyed by account id. -/
structure TransactionRepository where
  transactions : Nat → Option (List TransactionRecord)

/-- `TransactionRepository.__init__`. -/
def TransactionRepository.empty : TransactionRepository :=
  ⟨fun _ => none⟩

/-- `TransactionRepository.get_transactions`: raises `NoTransactions` when the
account id is not a key of the dict. -/
def TransactionRepository.get_transactions (repo : TransactionRepository)
    (account_id : Nat) : Except BankError (List TransactionRecord) :=
  match repo.transactions account_id with
  | none => .error .NoTransactions
  | some l => .ok l

/-- `TransactionRepository.store_transaction`: create the key with `[]` if
absent, then append the record. -/
def TransactionRepository.store_transaction (repo : TransactionRepository)
    (tr : TransactionRecord) : TransactionRepository :=
  ⟨fun i =>
    if i = tr.account_id then
      some ((repo.transactions tr.account_id).getD [] ++ [tr])
    else repo.transactions i⟩

/-- `AccountService.create_account`: generate a number, construct a
zero-balance `Account` (with a fresh uuid, passed in), save it.  The counter
consumed by `generate_account_number` is kept even when construction or
`save_account` raises. -/
def AccountService.create_account (repo : AccountRepository) (c : Customer)
    (fresh_account_id : Nat) : Except BankError Account × AccountRepository :=
  let pair := repo.generate_account_number
  match Account.make c.customer_id pair.1 0 fresh_account_id with
  | .error e => (.error e, pair.2)
  | .ok acct =>
    match pair.2.save_account acct with
    | (.error e, repo2) => (.error e, repo2)
    | (.ok _, repo2) => (.ok acct, repo2)

/-- `TransactionService._create_transaction_record` (fresh uuid and timestamp
passed in). -/
def TransactionService.create_transaction_record (account_id : Nat)
    (amount : ℚ) (type : TransactionType) (timestamp transaction_id : Nat) :
    TransactionRecord :=
  ⟨account_id, amount, type, timestamp, transaction_id⟩

/-- `TransactionService._process_transaction`: reject `amount < 0`, look up
the account, dispatch on the type, and build the record.  The in-place
mutation of the shared `Account` object is embedded as updating the
repository entry at `account_id`. -/
def TransactionService.process_transaction (arepo : AccountRepository)
    (account_id : Nat) (amount : ℚ) (transaction_type : TransactionType)
    (timestamp transaction_id : Nat) :
    Except BankError TransactionRecord × AccountRepository :=
  if amount < 0 then (.error .InvalidAmount, arepo)
  else
    match arepo.find_account_by_id account_id with
    | .error e => (.error e, arepo)
    | .ok account =>
      let step : Except BankError Account :=
        match transaction_type with
        | .DEPOSIT => account.deposit amount
        | .WITHDRAW => account.withdraw amount
      match step with
      | .error e => (.error e, arepo)
      | .ok account2 =>
        (.ok (TransactionService.create_transaction_record account_id amount
            transaction_type timestamp transaction_id),
          { arepo with
            accounts := fun i => if i = account_id then some account2 else arepo.accounts i })

/-- `TransactionService.make_transaction`: process, then store the record. -/
def TransactionService.make_transaction (arepo : AccountRepository)
    (trepo : TransactionRepository) (account_id : Nat) (amount : ℚ)
    (transaction_type : TransactionType) (timestamp transaction_id : Nat) :
    Except BankError Unit × AccountRepository × TransactionRepository :=
  match TransactionService.process_transaction arepo account_id amount
      transaction_type timestamp transaction_id with
  | (.error e, arepo2) => (.error e, arepo2, trepo)
  | (.ok tr, arepo2) => (.ok (), arepo2, trepo.store_transaction tr)

/-- `AccountStatement.generate_account_statement`: fetch and render,
newline-joined. -/
def AccountStatement.generate_account_statement (trepo : TransactionRepository)
    (account_id : Nat) : Except BankError String :=
  match trepo.get_transactions account_id with
  | .error e => .error e
  | .ok ts => .ok (String.intercalate "\n" (ts.map TransactionRecord.reprStr))

/-- Combined mutable program state: the two repositories shared by the
services. -/
structure BankState where
  arepo : AccountRepository
  trepo : TransactionRepository

/-- Freshly initialised repositories. -/
def BankState.init : BankState :=
  ⟨AccountRepository.empty, TransactionRepository.empty⟩

/-- Effect of one `AccountService.create_account` call on the shared state
(whether it succeeds or raises). -/
def createStep (s : BankState) (c : Customer) (fresh : Nat) : BankState :=
  ⟨(AccountService.create_account s.arepo c fresh).2, s.trepo⟩

/-- Effect of one direct `Account.deposit` call on an account object held by
the repository (in-place mutation on success, no state change on a raise). -/
def depositStep (s : BankState) (i : Nat) (amount : ℚ) : BankState :=
  match s.arepo.accounts i with
  | none => s
  | some a =>
    match a.deposit amount with
    | .error _ => s
    | .ok a2 =>
      ⟨{ s.arepo with
          accounts := fun j => if j = i then some a2 else s.arepo.accounts j },
        s.trepo⟩

/-- Effect of one direct `Account.withdraw` call, as in `depositStep`. -/
def withdrawStep (s : BankState) (i : Nat) (amount : ℚ) : BankState :=
  match s.arepo.accounts i with
  | none => s
  | some a =>
    match a.withdraw amount with
    | .error _ => s
    | .ok a2 =>
      ⟨{ s.arepo with
          accounts := fun j => if j = i then some a2 else s.arepo.accounts j },
        s.trepo⟩

/-- Effect of one `TransactionService.make_transaction` call on the shared
state. -/
def txStep (s : BankState) (i : Nat) (amount : ℚ) (ty : TransactionType)
    (timestamp transaction_id : Nat) : BankState :=
  let r := TransactionService.make_transaction s.arepo s.trepo i amount ty
    timestamp transaction_id
  ⟨r.2.1, r.2.2⟩

/-- States reachable from fresh repositories by any sequence of
`create_account`, direct `deposit` / `withdraw`, and `make_transaction`
calls, each of which may succeed or raise. -/
inductive Reachable : BankState → Prop where
  | init : Reachable BankState.init
  | create {s} (c : Customer) (fresh : Nat) :
      Reachable s → Reachable (createStep s c fresh)
  | dep {s} (i : Nat) (amount : ℚ) :
      Reachable s → Reachable (depositStep s i amount)
  | wd {s} (i : Nat) (amount : ℚ) :
      Reachable s → Reachable (withdrawStep s i amount)
  | tx {s} (i : Nat) (amount : ℚ) (ty : TransactionType)
      (timestamp transaction_id : Nat) :
      Reachable s → Reachable (txStep s i amount ty timestamp transaction_id)


/-- Value of a little-endian digit list. -/
def ofDigitsLE : List Nat → Nat
  | [] => 0
  | d :: ds => d + 10 * ofDigitsLE ds

theorem decDigitsAux_spec : ∀ fuel n, n ≤ fuel → ofDigitsLE (decDigitsAux fuel n) = n := by
  intro fuel
  induction fuel with
  | zero => intro n hn; interval_cases n; simp [decDigitsAux, ofDigitsLE]
  | succ f ih =>
    intro n hn
    by_cases h0 : n = 0
    · simp [decDigitsAux, h0, ofDigitsLE]
    · have hdiv : n / 10 ≤ f := by
        have : n / 10 < n := Nat.div_lt_self (Nat.pos_of_ne_zero h0) (by norm_num)
        omega
      simp only [decDigitsAux, h0, if_false, ofDigitsLE, ih _ hdiv]
      omega

theorem decDigitsAux_lt : ∀ fuel n d, d ∈ decDigitsAux fuel n → d < 10 := by
  intro fuel
  induction fuel with
  | zero => intro n d hd; simp [decDigitsAux] at hd
  | succ f ih =>
    intro n d hd
    by_cases h0 : n = 0
    · simp [decDigitsAux, h0] at hd
    · simp only [decDigitsAux, h0, if_false, List.mem_cons] at hd
      rcases hd with h | h
      · omega
      · exact ih _ _ h

theorem decDigitsAux_length : ∀ fuel n k, n < 10 ^ k → (decDigitsAux fuel n).length ≤ k := by
  intro fuel
  induction fuel with
  | zero => intro n k _; simp [decDigitsAux]
  | succ f ih =>
    intro n k hk
    by_cases h0 : n = 0
    · simp [decDigitsAux, h0]
    · have hkpos : k ≠ 0 := by
        rintro rfl
        simp at hk
        omega
      obtain ⟨k, rfl⟩ := Nat.exists_eq_succ_of_ne_zero hkpos
      have hdivlt : n / 10 < 10 ^ k := by
        rw [Nat.div_lt_iff_lt_mul (by norm_num)]
        calc n < 10 ^ (k + 1) := hk
        _ = 10 ^ k * 10 := by ring
      simp only [decDigitsAux, h0, if_false, List.length_cons]
      exact Nat.succ_le_succ (ih _ _ hdivlt)

/-- Numeric value of a big-endian digit-character list (inverse reading of
the rendering, used to prove the rendering injective). -/
def parseBE (l : List Char) : Nat :=
  l.foldl (fun acc c => 10 * acc + (c.toNat - 48)) 0

theorem parseBE_replicate_zero (k : Nat) (l : List Char) :
    parseBE (List.replicate k '0' ++ l) = parseBE l := by
  unfold parseBE
  rw [List.foldl_append]
  congr 1
  induction k with
  | zero => simp
  | succ m ih => rw [List.replicate_succ, List.foldl_cons]; simpa using ih

theorem digitChar_toNat : ∀ d, d < 10 → (Nat.digitChar d).toNat - 48 = d := by decide

theorem parseBE_map (l : List Nat) (hl : ∀ d ∈ l, d < 10) :
    parseBE ((l.reverse.map Nat.digitChar)) = ofDigitsLE l := by
  induction l with
  | nil => simp [parseBE, ofDigitsLE]
  | cons d ds ih =>
    have hds : ∀ x ∈ ds, x < 10 := fun x hx => hl x (List.mem_cons_of_mem _ hx)
    have hd : d < 10 := hl d (List.mem_cons_self _ _)
    simp only [List.reverse_cons, List.map_append, List.map_cons, List.map_nil]
    unfold parseBE
    rw [List.foldl_append]
    simp only [List.foldl_cons, List.foldl_nil]
    rw [show List.foldl (fun acc c => 10 * acc + (c.toNat - 48)) 0 (ds.reverse.map Nat.digitChar)
        = parseBE (ds.reverse.map Nat.digitChar) from rfl, ih hds]
    simp only [ofDigitsLE, digitChar_toNat d hd]
    ring

theorem parseBE_zfill_natToString (n : Nat) :
    parseBE (zfill 10 (natToString n)).data = n := by
  unfold zfill natToString
  by_cases h0 : n = 0
  · subst h0
    decide
  · simp only [natChars, h0, if_false]
    rw [parseBE_replicate_zero]
    rw [parseBE_map _ (fun d hd => decDigitsAux_lt n n d hd)]
    exact decDigitsAux_spec n n le_rfl

theorem zfill_natToString_inj (m n : Nat)
    (h : zfill 10 (natToString m) = zfill 10 (natToString n)) : m = n := by
  have := congrArg (fun s => parseBE s.data) h
  simpa [parseBE_zfill_natToString] using this

theorem natChars_length_le (n k : Nat) (hk : n < 10 ^ k) (hkpos : 0 < k) :
    (natChars n).length ≤ k := by
  unfold natChars
  by_cases h0 : n = 0
  · simpa [h0] using hkpos
  · simp only [h0, if_false, List.length_map, List.length_reverse]
    exact decDigitsAux_length n n k hk

theorem zfill_length (w : Nat) (s : String) :
    (zfill w s).length = max w s.length := by
  show (List.replicate (w - s.length) '0' ++ s.data).length = max w s.data.length
  simp [List.length_append, List.length_replicate]
  omega

theorem natChars_all_digits (n : Nat) : ∀ c ∈ natChars n, c.isDigit = true := by
  unfold natChars
  by_cases h0 : n = 0
  · simp [h0]
  · simp only [h0, if_false]
    intro c hc
    rw [List.mem_map] at hc
    obtain ⟨d, hd, rfl⟩ := hc
    rw [List.mem_reverse] at hd
    have := decDigitsAux_lt n n d hd
    interval_cases d <;> decide

theorem zfill_natToString_isdigit (n : Nat) :
    pyIsdigit (zfill 10 (natToString n)) = true := by
  unfold pyIsdigit zfill natToString
  rw [Bool.and_eq_true]
  constructor
  · have h1 : (String.mk (List.replicate (10 - (String.mk (natChars n)).length) '0'
        ++ natChars n)).length = (10 - (natChars n).length) + (natChars n).length := by
      show (List.replicate _ '0' ++ natChars n).length = _
      simp [List.length_append]
    have h2 : (natChars n).length ≠ 0 := by
      unfold natChars
      by_cases h0 : n = 0 <;> simp [h0, decDigitsAux]
      intro h
      have := decDigitsAux_spec n n le_rfl
      rw [h] at this
      simp [ofDigitsLE] at this
      omega
    simp only [bne_iff_ne, ne_eq, h1]
    omega
  · show (List.replicate _ '0' ++ natChars n).all Char.isDigit = true
    rw [List.all_eq_true]
    intro c hc
    rw [List.mem_append] at hc
    rcases hc with h | h
    · rw [List.eq_of_mem_replicate h]; decide
    · exact natChars_all_digits n c h


theorem deposit_ok_iff (a a2 : Account) (amount : ℚ) :
    a.deposit amount = .ok a2 ↔ ¬ amount < 0 ∧ a2 = { a with balance := a.balance + amount } := by
  unfold Account.deposit
  split
  · simp_all
  · simp_all [eq_comm]

theorem withdraw_ok_iff (a a2 : Account) (amount : ℚ) :
    a.withdraw amount = .ok a2 ↔
      ¬ amount ≤ 0 ∧ ¬ a.balance < amount ∧ a2 = { a with balance := a.balance - amount } := by
  unfold Account.withdraw
  split
  · simp_all
  · split
    · simp_all
    · simp_all [eq_comm]

theorem withdraw_error_iff (a : Account) (amount : ℚ) (e : BankError) :
    a.withdraw amount = .error e ↔
      (amount ≤ 0 ∧ e = .InvalidAmount)
      ∨ (¬ amount ≤ 0 ∧ a.balance < amount ∧ e = .InsufficientFunds) := by
  unfold Account.withdraw
  split
  · simp_all [eq_comm]
  · split
    · simp_all [eq_comm]
    · simp_all

theorem save_account_accounts (repo : AccountRepository) (a : Account) (i : Nat) (b : Account)
    (h : ((repo.save_account a).2).accounts i = some b) :
    repo.accounts i = some b ∨ b = a := by
  unfold AccountRepository.save_account at h
  cases hd : repo.accounts a.account_id with
  | some x => rw [hd] at h; exact Or.inl h
  | none =>
    rw [hd] at h
    simp only at h
    by_cases hi : i = a.account_id
    · rw [if_pos hi] at h
      exact Or.inr (Option.some_inj.mp h).symm
    · rw [if_neg hi] at h
      exact Or.inl h

theorem create_account_accounts (repo : AccountRepository) (c : Customer) (fresh i : Nat)
    (b : Account) (h : ((AccountService.create_account repo c fresh).2).accounts i = some b) :
    repo.accounts i = some b ∨ b.balance = 0 := by
  simp only [AccountService.create_account, Account.make] at h
  split at h
  · exact Or.inl h
  · rename_i x acct heq
    have hb : acct.balance = 0 := by
      split at heq
      · exact absurd heq (by simp)
      · injection heq with h3
        rw [← h3]
    rcases hs : repo.generate_account_number.2.save_account acct with ⟨r2, repo2⟩
    rw [hs] at h
    have h2 : repo2.accounts i = some b := by
      cases r2 <;> simpa using h
    have h4 : ((repo.generate_account_number.2.save_account acct).2).accounts i = some b := by
      rw [hs]; exact h2
    rcases save_account_accounts _ _ _ _ h4 with h' | h'
    · exact Or.inl h'
    · right; rw [h', hb]

theorem make_transaction_spec (arepo : AccountRepository) (trepo : TransactionRepository)
    (id : Nat) (amount : ℚ) (ty : TransactionType) (ts txid : Nat) :
    (∃ e, TransactionService.make_transaction arepo trepo id amount ty ts txid
        = (.error e, arepo, trepo))
    ∨ (∃ a a2, arepo.accounts id = some a
        ∧ ((ty = .DEPOSIT ∧ a.deposit amount = .ok a2)
            ∨ (ty = .WITHDRAW ∧ a.withdraw amount = .ok a2))
        ∧ TransactionService.make_transaction arepo trepo id amount ty ts txid
          = (.ok (),
             { arepo with accounts := fun i => if i = id then some a2 else arepo.accounts i },
             trepo.store_transaction ⟨id, amount, ty, ts, txid⟩)) := by
  unfold TransactionService.make_transaction TransactionService.process_transaction
    AccountRepository.find_account_by_id TransactionService.create_transaction_record
  by_cases hneg : amount < 0
  · left; exact ⟨.InvalidAmount, by rw [if_pos hneg]⟩
  · rw [if_neg hneg]
    cases hacc : arepo.accounts id with
    | none => left; exact ⟨.AccountNotFound, rfl⟩
    | some a =>
      cases ty with
      | DEPOSIT =>
        cases hstep : a.deposit amount with
        | error e => left; exact ⟨e, by simp [hstep]⟩
        | ok a2 =>
          right
          exact ⟨a, a2, rfl, Or.inl ⟨rfl, hstep⟩, by simp [hstep]⟩
      | WITHDRAW =>
        cases hstep : a.withdraw amount with
        | error e => left; exact ⟨e, by simp [hstep]⟩
        | ok a2 =>
          right
          exact ⟨a, a2, rfl, Or.inr ⟨rfl, hstep⟩, by simp [hstep]⟩


theorem createStep_trepo (s : BankState) (c : Customer) (fresh : Nat) :
    (createStep s c fresh).trepo = s.trepo := rfl

theorem depositStep_trepo (s : BankState) (i : Nat) (amount : ℚ) :
    (depositStep s i amount).trepo = s.trepo := by
  unfold depositStep
  split
  · rfl
  · split <;> rfl

theorem withdrawStep_trepo (s : BankState) (i : Nat) (amount : ℚ) :
    (withdrawStep s i amount).trepo = s.trepo := by
  unfold withdrawStep
  split
  · rfl
  · split <;> rfl

theorem depositStep_accounts (s : BankState) (i : Nat) (amount : ℚ) (j : Nat) (b : Account)
    (h : (depositStep s i amount).arepo.accounts j = some b) :
    s.arepo.accounts j = some b
    ∨ ∃ a, s.arepo.accounts j = some a ∧ a.deposit amount = .ok b := by
  unfold depositStep at h
  split at h
  · exact Or.inl h
  · rename_i a hacc
    split at h
    · exact Or.inl h
    · rename_i a2 hdep
      simp only at h
      by_cases hj : j = i
      · subst hj
        rw [if_pos rfl] at h
        exact Or.inr ⟨a, hacc, by rw [hdep, Option.some_inj.mp h]⟩
      · rw [if_neg hj] at h
        exact Or.inl h

theorem withdrawStep_accounts (s : BankState) (i : Nat) (amount : ℚ) (j : Nat) (b : Account)
    (h : (withdrawStep s i amount).arepo.accounts j = some b) :
    s.arepo.accounts j = some b
    ∨ ∃ a, s.arepo.accounts j = some a ∧ a.withdraw amount = .ok b := by
  unfold withdrawStep at h
  split at h
  · exact Or.inl h
  · rename_i a hacc
    split at h
    · exact Or.inl h
    · rename_i a2 hwd
      simp only at h
      by_cases hj : j = i
      · subst hj
        rw [if_pos rfl] at h
        exact Or.inr ⟨a, hacc, by rw [hwd, Option.some_inj.mp h]⟩
      · rw [if_neg hj] at h
        exact Or.inl h

theorem txStep_accounts (s : BankState) (i : Nat) (amount : ℚ) (ty : TransactionType)
    (ts txid : Nat) (j : Nat) (b : Account)
    (h : (txStep s i amount ty ts txid).arepo.accounts j = some b) :
    s.arepo.accounts j = some b
    ∨ ∃ a, s.arepo.accounts j = some a
        ∧ (a.deposit amount = .ok b ∨ a.withdraw amount = .ok b) := by
  unfold txStep at h
  rcases make_transaction_spec s.arepo s.trepo i amount ty ts txid with ⟨e, hmk⟩ | ⟨a, a2, hacc, hstep, hmk⟩
  · rw [hmk] at h
    exact Or.inl h
  · rw [hmk] at h
    simp only at h
    by_cases hj : j = i
    · subst hj
      rw [if_pos rfl] at h
      have hb : b = a2 := (Option.some_inj.mp h).symm
      subst hb
      rcases hstep with ⟨_, hd⟩ | ⟨_, hw⟩
      · exact Or.inr ⟨a, hacc, Or.inl hd⟩
      · exact Or.inr ⟨a, hacc, Or.inr hw⟩
    · rw [if_neg hj] at h
      exact Or.inl h

theorem txStep_transactions (s : BankState) (i : Nat) (amount : ℚ) (ty : TransactionType)
    (ts txid : Nat) (j : Nat) (l : List TransactionRecord)
    (h : (txStep s i amount ty ts txid).trepo.transactions j = some l) :
    s.trepo.transactions j = some l
    ∨ l = (s.trepo.transactions i).getD [] ++ [⟨i, amount, ty, ts, txid⟩] := by
  unfold txStep at h
  rcases make_transaction_spec s.arepo s.trepo i amount ty ts txid with ⟨e, hmk⟩ | ⟨a, a2, hacc, hstep, hmk⟩
  · rw [hmk] at h
    exact Or.inl h
  · rw [hmk] at h
    simp only [TransactionRepository.store_transaction] at h
    by_cases hj : j = i
    · subst hj
      rw [if_pos rfl] at h
      exact Or.inr (Option.some_inj.mp h).symm
    · rw [if_neg hj] at h
      exact Or.inl h

theorem reachable_histories (s : BankState) (hs : Reachable s) :
    ∀ i l, s.trepo.transactions i = some l → l ≠ [] := by
  induction hs with
  | init => intro i l h; exact absurd h (by simp [BankState.init, TransactionRepository.empty])
  | @create s c fresh hr ih => intro i l h; exact ih i l (by rw [← createStep_trepo s c fresh]; exact h)
  | @dep s i amount hr ih => intro j l h; exact ih j l (by rw [← depositStep_trepo s i amount]; exact h)
  | @wd s i amount hr ih => intro j l h; exact ih j l (by rw [← withdrawStep_trepo s i amount]; exact h)
  | @tx s i amount ty ts txid hr ih =>
    intro j l h
    rcases txStep_transactions s i amount ty ts txid j l h with h' | h'
    · exact ih j l h'
    · rw [h']
      simp

theorem deposit_ok_nonneg (a b : Account) (amount : ℚ) (hd : a.deposit amount = .ok b)
    (ha : 0 ≤ a.balance) : 0 ≤ b.balance := by
  rcases (deposit_ok_iff a b amount).mp hd with ⟨hneg, rfl⟩
  have : 0 ≤ amount := le_of_not_lt hneg
  simp only
  linarith

theorem withdraw_ok_nonneg (a b : Account) (amount : ℚ) (hw : a.withdraw amount = .ok b) :
    0 ≤ b.balance := by
  rcases (withdraw_ok_iff a b amount).mp hw with ⟨hpos, hle, rfl⟩
  simp only
  linarith [le_of_not_lt hle]


/-- C1: starting from the zero-balance state produced by
`AccountService.create_account`, after any sequence of `Account.deposit`,
`Account.withdraw` and `TransactionService.make_transaction` calls (each
succeeding or failing), every account held by the repository has a
nonnegative balance. -/
theorem C1_balance_nonneg (s : BankState) (hs : Reachable s) :
    ∀ i a, s.arepo.accounts i = some a → 0 ≤ a.balance := by
  induction hs with
  | init =>
    intro i a h
    exact absurd h (by simp [BankState.init, AccountRepository.empty])
  | @create s c fresh hr ih =>
    intro i a h
    rcases create_account_accounts s.arepo c fresh i a h with h' | h'
    · exact ih i a h'
    · rw [h']
  | @dep s i amount hr ih =>
    intro j b h
    rcases depositStep_accounts s i amount j b h with h' | ⟨a, hacc, hdep⟩
    · exact ih j b h'
    · exact deposit_ok_nonneg a b amount hdep (ih j a hacc)
  | @wd s i amount hr ih =>
    intro j b h
    rcases withdrawStep_accounts s i amount j b h with h' | ⟨a, hacc, hwd⟩
    · exact ih j b h'
    · exact withdraw_ok_nonneg a b amount hwd
  | @tx s i amount ty ts txid hr ih =>
    intro j b h
    rcases txStep_accounts s i amount ty ts txid j b h with h' | ⟨a, hacc, hstep⟩
    · exact ih j b h'
    · rcases hstep with hd | hw
      · exact deposit_ok_nonneg a b amount hd (ih j a hacc)
      · exact withdraw_ok_nonneg a b amount hw

/-- A concrete reachable state: one freshly created account (id 3, owned by
customer 7). -/
def oneAccountState : BankState :=
  createStep BankState.init ⟨"A", "a@b", "639213423123", 7⟩ 3

theorem oneAccountState_reachable : Reachable oneAccountState :=
  Reachable.create _ 3 Reachable.init

/-- Witness for C1 at a concrete reachable state. -/
theorem C1_witness :
    ∃ a, oneAccountState.arepo.accounts 3 = some a ∧ 0 ≤ a.balance := by
  have hacc : oneAccountState.arepo.accounts 3 = some ⟨7, "0000000001", 0, 3⟩ := by decide
  exact ⟨_, hacc,
    C1_balance_nonneg oneAccountState oneAccountState_reachable 3 _ hacc⟩


/-- C2: a successful `make_transaction` appends exactly one new record to the
account's history and the balance reflects the mutation; a failing call
leaves both repositories exactly as they were. -/
theorem C2_make_transaction_atomic (arepo : AccountRepository)
    (trepo : TransactionRepository) (id : Nat) (amount : ℚ)
    (ty : TransactionType) (ts txid : Nat) :
    ((TransactionService.make_transaction arepo trepo id amount ty ts txid).1 = .ok () →
      ∃ a a2, arepo.accounts id = some a
        ∧ (TransactionService.make_transaction arepo trepo id amount ty ts txid).2.1.accounts id
            = some a2
        ∧ ((ty = .DEPOSIT ∧ a2.balance = a.balance + amount)
            ∨ (ty = .WITHDRAW ∧ a2.balance = a.balance - amount))
        ∧ (TransactionService.make_transaction arepo trepo id amount ty ts txid).2.2.transactions id
            = some ((trepo.transactions id).getD [] ++ [⟨id, amount, ty, ts, txid⟩]))
    ∧ (∀ e, (TransactionService.make_transaction arepo trepo id amount ty ts txid).1 = .error e →
        (TransactionService.make_transaction arepo trepo id amount ty ts txid).2.1 = arepo
        ∧ (TransactionService.make_transaction arepo trepo id amount ty ts txid).2.2 = trepo) := by
  rcases make_transaction_spec arepo trepo id amount ty ts txid
    with ⟨e, hmk⟩ | ⟨a, a2, hacc, hstep, hmk⟩
  · constructor
    · intro hok
      rw [hmk] at hok
      simp at hok
    · intro e2 _
      rw [hmk]
      exact ⟨rfl, rfl⟩
  · constructor
    · intro _
      refine ⟨a, a2, hacc, ?_, ?_, ?_⟩
      · rw [hmk]
        simp
      · rcases hstep with ⟨hty, hd⟩ | ⟨hty, hw⟩
        · rcases (deposit_ok_iff a a2 amount).mp hd with ⟨_, rfl⟩
          exact Or.inl ⟨hty, rfl⟩
        · rcases (withdraw_ok_iff a a2 amount).mp hw with ⟨_, _, rfl⟩
          exact Or.inr ⟨hty, rfl⟩
      · rw [hmk]
        simp [TransactionRepository.store_transaction]
    · intro e he
      rw [hmk] at he
      simp at he

/-- Account repository holding one account (id 3, customer 7, balance 100),
used to instantiate theorems at a concrete input. -/
def wARepo : AccountRepository :=
  ⟨fun i => if i = 3 then some ⟨7, "0000000001", 100, 3⟩ else none, fun _ => [], 1⟩

/-- Witness for C2: a concrete successful withdrawal. -/
theorem C2_witness :
    ∃ a a2, wARepo.accounts 3 = some a
      ∧ (TransactionService.make_transaction wARepo TransactionRepository.empty
          3 50 .WITHDRAW 9 11).2.1.accounts 3 = some a2
      ∧ ((TransactionType.WITHDRAW = .DEPOSIT ∧ a2.balance = a.balance + 50)
          ∨ (TransactionType.WITHDRAW = .WITHDRAW ∧ a2.balance = a.balance - 50))
      ∧ (TransactionService.make_transaction wARepo TransactionRepository.empty
          3 50 .WITHDRAW 9 11).2.2.transactions 3
          = some ((TransactionRepository.empty.transactions 3).getD []
              ++ [⟨3, 50, .WITHDRAW, 9, 11⟩]) :=
  (C2_make_transaction_atomic wARepo TransactionRepository.empty 3 50 .WITHDRAW 9 11).1
    (by decide)

/-- C10: `make_transaction` never touches the stored account or the history
of any account other than the one it targets. -/
theorem C10_frame (arepo : AccountRepository) (trepo : TransactionRepository)
    (id : Nat) (amount : ℚ) (ty : TransactionType) (ts txid : Nat) (j : Nat)
    (hj : j ≠ id) :
    (TransactionService.make_transaction arepo trepo id amount ty ts txid).2.1.accounts j
        = arepo.accounts j
    ∧ (TransactionService.make_transaction arepo trepo id amount ty ts txid).2.2.transactions j
        = trepo.transactions j := by
  rcases make_transaction_spec arepo trepo id amount ty ts txid
    with ⟨e, hmk⟩ | ⟨a, a2, hacc, hstep, hmk⟩ <;> rw [hmk]
  · exact ⟨rfl, rfl⟩
  · constructor
    · simp [hj]
    · simp [TransactionRepository.store_transaction, hj]

/-- Witness for C10 at a concrete call and a concrete other account id. -/
theorem C10_witness :
    (TransactionService.make_transaction wARepo TransactionRepository.empty
        3 50 .WITHDRAW 9 11).2.1.accounts 4 = wARepo.accounts 4
    ∧ (TransactionService.make_transaction wARepo TransactionRepository.empty
        3 50 .WITHDRAW 9 11).2.2.transactions 4
        = TransactionRepository.empty.transactions 4 :=
  C10_frame wARepo TransactionRepository.empty 3 50 .WITHDRAW 9 11 4 (by decide)

/-- C5: `withdraw` fails with `InvalidAmount` exactly when `amount ≤ 0`,
fails with `InsufficientFunds` exactly when `0 < amount` and
`amount > balance`, and otherwise subtracts exactly `amount`; withdrawing the
whole balance succeeds and leaves balance `0`. -/
theorem C5_withdraw_spec (a : Account) (amount : ℚ) :
    (a.withdraw amount = .error .InvalidAmount ↔ amount ≤ 0)
    ∧ (a.withdraw amount = .error .InsufficientFunds ↔ 0 < amount ∧ a.balance < amount)
    ∧ (0 < amount → amount ≤ a.balance →
        a.withdraw amount = .ok { a with balance := a.balance - amount })
    ∧ (0 < a.balance → a.withdraw a.balance = .ok { a with balance := 0 }) := by
  have c3 : ∀ amt : ℚ, 0 < amt → amt ≤ a.balance →
      a.withdraw amt = .ok { a with balance := a.balance - amt } := by
    intro amt h1 h2
    exact (withdraw_ok_iff a _ amt).mpr ⟨not_le.mpr h1, not_lt.mpr h2, rfl⟩
  refine ⟨?_, ?_, c3 amount, ?_⟩
  · rw [withdraw_error_iff]
    constructor
    · rintro (⟨h, _⟩ | ⟨_, _, h⟩)
      · exact h
      · exact absurd h (by simp)
    · intro h
      exact Or.inl ⟨h, rfl⟩
  · rw [withdraw_error_iff]
    constructor
    · rintro (⟨_, h⟩ | ⟨h1, h2, _⟩)
      · exact absurd h (by simp)
      · exact ⟨not_le.mp h1, h2⟩
    · rintro ⟨h1, h2⟩
      exact Or.inr ⟨not_le.mpr h1, h2, rfl⟩
  · intro hb
    have h3 := c3 a.balance hb le_rfl
    rw [sub_self] at h3
    exact h3

/-- Witness for C5: withdrawing 3 from balance 5 leaves 2. -/
theorem C5_witness :
    Account.withdraw ⟨0, "0000000001", 5, 0⟩ 3 = .ok ⟨0, "0000000001", 2, 0⟩ := by
  have h := (C5_withdraw_spec ⟨0, "0000000001", 5, 0⟩ 3).2.2.1 (by norm_num) (by norm_num)
  rw [h]
  norm_num

/-- C9: `save_account` fails with `DuplicateAccount` exactly when the id is
already stored, leaving the repository untouched; on success the account is
indexed under its id and appended at the end of its customer's list, all
other entries unchanged. -/
theorem C9_save_account_spec (repo : AccountRepository) (a : Account) :
    ((repo.save_account a).1 = .error .DuplicateAccount
        ↔ ∃ b, repo.accounts a.account_id = some b)
    ∧ (∀ b, repo.accounts a.account_id = some b →
        repo.save_account a = (.error .DuplicateAccount, repo))
    ∧ (repo.accounts a.account_id = none →
        (repo.save_account a).1 = .ok ()
        ∧ (repo.save_account a).2.accounts a.account_id = some a
        ∧ (∀ j, j ≠ a.account_id → (repo.save_account a).2.accounts j = repo.accounts j)
        ∧ (repo.save_account a).2.customer_accounts a.customer_id
            = repo.customer_accounts a.customer_id ++ [a.account_id]
        ∧ (∀ c, c ≠ a.customer_id →
            (repo.save_account a).2.customer_accounts c = repo.customer_accounts c)) := by
  unfold AccountRepository.save_account
  cases hd : repo.accounts a.account_id with
  | some x =>
    refine ⟨by simp, fun b _ => rfl, fun hnone => absurd hnone (by simp)⟩
  | none =>
    refine ⟨by simp, fun b hb => absurd hb (by simp), fun _ => ?_⟩
    refine ⟨rfl, by simp, fun j hj => by simp [hj], by simp, fun c hc => by simp [hc]⟩

/-- Witness for C9: saving into an empty repository succeeds and indexes the
account both by id and under its customer. -/
theorem C9_witness :
    (AccountRepository.empty.save_account ⟨7, "0000000001", 100, 3⟩).1 = .ok ()
    ∧ (AccountRepository.empty.save_account ⟨7, "0000000001", 100, 3⟩).2.accounts 3
        = some ⟨7, "0000000001", 100, 3⟩
    ∧ (AccountRepository.empty.save_account ⟨7, "0000000001", 100, 3⟩).2.accounts 4
        = AccountRepository.empty.accounts 4
    ∧ (AccountRepository.empty.save_account ⟨7, "0000000001", 100, 3⟩).2.customer_accounts 7
        = AccountRepository.empty.customer_accounts 7 ++ [3]
    ∧ (AccountRepository.empty.save_account ⟨7, "0000000001", 100, 3⟩).2.customer_accounts 9
        = AccountRepository.empty.customer_accounts 9 := by
  have h := (C9_save_account_spec AccountRepository.empty ⟨7, "0000000001", 100, 3⟩).2.2 (by decide)
  exact ⟨h.1, h.2.1, h.2.2.1 4 (by decide), h.2.2.2.1, h.2.2.2.2 9 (by decide)⟩


/-- C4 (code bug): `deposit(0)` succeeds and leaves the balance unchanged,
although the claim — and the function's own error message, and the parallel
`withdraw` check — require `amount ≤ 0` to fail with `InvalidAmount`: the
source tests `amount < 0`. -/
theorem C4_deposit_zero_succeeds :
    Account.deposit ⟨0, "0000000001", 5, 0⟩ 0 = .ok ⟨0, "0000000001", 5, 0⟩ := by
  simp [Account.deposit]

/-- State in which a zero-amount DEPOSIT transaction has been processed on
the freshly created account. -/
def zeroDepositState : BankState :=
  txStep oneAccountState 3 0 .DEPOSIT 5 11

/-- C3 (code bug): `make_transaction` with amount `0` and kind DEPOSIT
succeeds (both guards test `amount < 0`), so a `TransactionRecord` with
`amount = 0` is stored, contradicting the strict positivity the spec
requires of records. -/
theorem C3_zero_amount_record :
    Reachable zeroDepositState
    ∧ zeroDepositState.trepo.transactions 3 = some [⟨3, 0, .DEPOSIT, 5, 11⟩] := by
  constructor
  · exact Reachable.tx 3 0 .DEPOSIT 5 11 oneAccountState_reachable
  · decide

/-- C6 counterexample: a customer whose phone is 12 digits but does not start
with the country code `63`, and whose email contains two `@`s (so not exactly
one `@` separating non-empty parts), is accepted by the constructor, while
the claim requires both an `InvalidPhoneNumber` and an `InvalidEmail`
failure here. -/
theorem C6_counterexample :
    Customer.make "A" "a@@b" "123456789012" 0 = .ok ⟨"A", "a@@b", "123456789012", 0⟩ := by
  decide

/-- C6 as amended: construction fails with `InvalidPhoneNumber` exactly when
the phone is not a 12-character all-digit string (no prefix test), then fails
with `InvalidEmail` exactly when the email does not contain an `@`
(multiplicity and surrounding parts are not checked); otherwise it
succeeds. -/
theorem C6_validation_spec (name email phone : String) (cid : Nat) :
    (Customer.make name email phone cid = .error .InvalidPhoneNumber
        ↔ ¬(pyIsdigit phone = true ∧ phone.length = 12))
    ∧ (pyIsdigit phone = true → phone.length = 12 →
        (Customer.make name email phone cid = .error .InvalidEmail
          ↔ pyInStr '@' email = false))
    ∧ (pyIsdigit phone = true → phone.length = 12 → pyInStr '@' email = true →
        Customer.make name email phone cid = .ok ⟨name, email, phone, cid⟩) := by
  by_cases hphone : (!pyIsdigit phone || decide (phone.length ≠ 12)) = true
  · have hmk : Customer.make name email phone cid = .error .InvalidPhoneNumber := by
      unfold Customer.make
      rw [if_pos hphone]
    have hbad : ¬(pyIsdigit phone = true ∧ phone.length = 12) := by
      rintro ⟨hp, hl⟩
      rw [Bool.or_eq_true, Bool.not_eq_true', decide_eq_true_eq] at hphone
      rcases hphone with h | h
      · rw [hp] at h; cases h
      · exact h hl
    rw [hmk]
    refine ⟨iff_of_true rfl hbad, ?_, ?_⟩
    · intro hp hl
      exact absurd ⟨hp, hl⟩ hbad
    · intro hp hl _
      exact absurd ⟨hp, hl⟩ hbad
  · have hphone2 := hphone
    rw [Bool.or_eq_true, Bool.not_eq_true', decide_eq_true_eq] at hphone2
    push_neg at hphone2
    have hp : pyIsdigit phone = true := by
      cases h : pyIsdigit phone
      · exact absurd h hphone2.1
      · rfl
    have hl : phone.length = 12 := hphone2.2
    by_cases hmail : (!pyInStr '@' email) = true
    · have hmk : Customer.make name email phone cid = .error .InvalidEmail := by
        unfold Customer.make
        rw [if_neg hphone, if_pos hmail]
      have hfalse : pyInStr '@' email = false := by
        cases h : pyInStr '@' email
        · rfl
        · rw [h] at hmail; cases hmail
      rw [hmk]
      refine ⟨iff_of_false (by simp) (by simp [hp, hl]), fun _ _ => iff_of_true rfl hfalse, ?_⟩
      intro _ _ htrue
      simp [htrue] at hfalse
    · have hmk : Customer.make name email phone cid = .ok ⟨name, email, phone, cid⟩ := by
        unfold Customer.make
        rw [if_neg hphone, if_neg hmail]
      have htrue : pyInStr '@' email = true := by
        cases h : pyInStr '@' email
        · exfalso; apply hmail; rw [h]; rfl
        · rfl
      rw [hmk]
      exact ⟨iff_of_false (by simp) (by simp [hp, hl]),
        fun _ _ => iff_of_false (by simp) (by simp [htrue]),
        fun _ _ _ => rfl⟩

/-- Witness for C6: a valid phone/email pair is accepted, through the
amended characterization. -/
theorem C6_witness :
    Customer.make "A" "a@b" "639213423123" 0 = .ok ⟨"A", "a@b", "639213423123", 0⟩ :=
  (C6_validation_spec "A" "a@b" "639213423123" 0).2.2 (by decide) (by decide) (by decide)


/-- C7: in every reachable state, `get_transactions` (and with it
`generate_account_statement`) fails with `NoTransactions` exactly when the
account's history is empty; otherwise both return/render the stored history
in order, and each further successful `make_transaction` appends its record
at the end (so the history lists records oldest first, in completion
order). -/
theorem C7_history_order_spec (s : BankState) (hs : Reachable s) (i : Nat) :
    (TransactionRepository.get_transactions s.trepo i = .error .NoTransactions
        ↔ (s.trepo.transactions i).getD [] = [])
    ∧ ((s.trepo.transactions i).getD [] ≠ [] →
        TransactionRepository.get_transactions s.trepo i
            = .ok ((s.trepo.transactions i).getD [])
        ∧ AccountStatement.generate_account_statement s.trepo i
            = .ok (String.intercalate "\n"
                (((s.trepo.transactions i).getD []).map TransactionRecord.reprStr)))
    ∧ (∀ amount ty ts txid,
        (TransactionService.make_transaction s.arepo s.trepo i amount ty ts txid).1 = .ok () →
        (TransactionService.make_transaction s.arepo s.trepo i amount ty ts txid).2.2.transactions i
          = some ((s.trepo.transactions i).getD [] ++ [⟨i, amount, ty, ts, txid⟩])) := by
  refine ⟨?_, ?_, ?_⟩
  · cases hT : s.trepo.transactions i with
    | none =>
      simp only [TransactionRepository.get_transactions, hT, Option.getD_none]
    | some l =>
      have hne : l ≠ [] := reachable_histories s hs i l hT
      simp only [TransactionRepository.get_transactions, hT, Option.getD_some]
      constructor
      · intro h; cases h
      · intro h; exact absurd h hne
  · intro hne
    cases hT : s.trepo.transactions i with
    | none => rw [hT] at hne; simp at hne
    | some l =>
      rw [hT] at hne
      simp only [Option.getD_some] at hne ⊢
      constructor
      · simp [TransactionRepository.get_transactions, hT]
      · simp [AccountStatement.generate_account_statement,
          TransactionRepository.get_transactions, hT]
  · intro amount ty ts txid hok
    rcases make_transaction_spec s.arepo s.trepo i amount ty ts txid
      with ⟨e, hmk⟩ | ⟨a, a2, hacc, hstep, hmk⟩
    · rw [hmk] at hok
      cases hok
    · rw [hmk]
      simp [TransactionRepository.store_transaction]

/-- State holding one deposit of 5000 on the freshly created account. -/
def oneTxState : BankState :=
  txStep oneAccountState 3 5000 .DEPOSIT 1 21

theorem oneTxState_reachable : Reachable oneTxState :=
  Reachable.tx 3 5000 .DEPOSIT 1 21 oneAccountState_reachable

/-- Witness for C7 at a concrete reachable state with one stored record. -/
theorem C7_witness :
    TransactionRepository.get_transactions oneTxState.trepo 3
        = .ok ((oneTxState.trepo.transactions 3).getD [])
    ∧ AccountStatement.generate_account_statement oneTxState.trepo 3
        = .ok (String.intercalate "\n"
            (((oneTxState.trepo.transactions 3).getD []).map TransactionRecord.reprStr)) :=
  (C7_history_order_spec oneTxState oneTxState_reachable 3).2.1 (by decide)

/-- `save_account` never changes the account-number counter. -/
theorem save_account_counter (repo : AccountRepository) (a : Account) :
    ((repo.save_account a).2).current_account_number = repo.current_account_number := by
  unfold AccountRepository.save_account
  cases repo.accounts a.account_id <;> rfl

/-- C8 as amended: `generate_account_number` returns the decimal of the
incremented counter zero-padded to width 10 — a 10-digit all-digit string
for every counter value below `10 ^ 10 - 1`, and a longer string beyond — the
counter strictly increases by one per call, distinct counters give distinct
strings (never reused), and `create_account` consumes the number even when
the subsequent save fails. -/
theorem C8_generate_spec (repo : AccountRepository) :
    (repo.generate_account_number).1
        = zfill 10 (natToString (repo.current_account_number + 1))
    ∧ (repo.generate_account_number).2.current_account_number
        = repo.current_account_number + 1
    ∧ (repo.current_account_number + 1 < 10 ^ 10 →
        (repo.generate_account_number).1.length = 10
        ∧ pyIsdigit (repo.generate_account_number).1 = true)
    ∧ (∀ m n : Nat, zfill 10 (natToString m) = zfill 10 (natToString n) → m = n)
    ∧ (∀ c fresh, (AccountService.create_account repo c fresh).2.current_account_number
        = repo.current_account_number + 1) := by
  refine ⟨rfl, rfl, ?_, zfill_natToString_inj, ?_⟩
  · intro hlt
    constructor
    · show (zfill 10 (natToString (repo.current_account_number + 1))).length = 10
      rw [zfill_length]
      have hle : (natChars (repo.current_account_number + 1)).length ≤ 10 :=
        natChars_length_le _ 10 hlt (by norm_num)
      have hstr : (natToString (repo.current_account_number + 1)).length
          = (natChars (repo.current_account_number + 1)).length := rfl
      rw [hstr]
      exact Nat.max_eq_left hle
    · exact zfill_natToString_isdigit _
  · intro c fresh
    simp only [AccountService.create_account]
    split
    · rfl
    · rcases hs : (repo.generate_account_number).2.save_account _ with ⟨r2, repo2⟩
      have hc : repo2.current_account_number
          = (repo.generate_account_number).2.current_account_number := by
        rw [show repo2 = ((repo.generate_account_number).2.save_account _).2 by rw [hs]]
        exact save_account_counter _ _
      cases r2 <;> simpa [hs] using hc

/-- Witness for C8: the first call on a fresh repository returns a 10-digit
all-digit string. -/
theorem C8_witness :
    (AccountRepository.empty.generate_account_number).1.length = 10
    ∧ pyIsdigit (AccountRepository.empty.generate_account_number).1 = true :=
  (C8_generate_spec AccountRepository.empty).2.2.1 (by decide)

/-- Iterated `generate_account_number` calls (dropping the returned
strings). -/
def iterGen : Nat → AccountRepository → AccountRepository
  | 0, r => r
  | n + 1, r => iterGen n (r.generate_account_number).2

theorem iterGen_counter : ∀ (n : Nat) (r : AccountRepository),
    (iterGen n r).current_account_number = r.current_account_number + n := by
  intro n
  induction n with
  | zero => intro r; simp [iterGen]
  | succ m ih =>
    intro r
    show (iterGen m (r.generate_account_number).2).current_account_number = _
    rw [ih]
    show r.current_account_number + 1 + m = r.current_account_number + (m + 1)
    omega

/-- C8 counterexample: after `10 ^ 10 - 1` calls on a fresh repository, the
next `generate_account_number` call returns an 11-character string, not a
10-digit one. -/
theorem C8_counterexample :
    ((iterGen 9999999999 AccountRepository.empty).generate_account_number).1.length = 11 := by
  have hc : (iterGen 9999999999 AccountRepository.empty).current_account_number
      = 9999999999 := by
    rw [iterGen_counter]
    rfl
  show (zfill 10 (natToString
      ((iterGen 9999999999 AccountRepository.empty).current_account_number + 1))).length = 11
  rw [hc]
  decide

end Banking
